import Mathlib

/-!
Shallow embedding of the effect-system checker in
`src/librustc/middle/effect.rs`: the `EffectCheckVisitor` walking a
type-checked AST, tracking the current `UnsafeContext`, emitting
diagnostics (error codes 133, 134, 135 standing for E0133/E0134/E0135)
and recording used markers in the `used_unsafe` side set.

The AST carries, at each expression node, the information the checker
queries from the type context: the node's resolved type
(`ty::node_id_to_type`), the method map entry for method calls, and the
resolution of path expressions (`ty::resolve_expr`).  The visitor is
state-passing: the mutable fields of `EffectCheckVisitor` and the two
shared sinks (session diagnostics, `tcx.used_unsafe`) form the state
record `St`.
-/

namespace Effect

/-- Mirror of `ast::Unsafety`. -/
inductive Unsafety
  | Normal
  | Unsafe
deriving DecidableEq

/-- Mirror of `ast::UnsafeSource`: provenance of an `unsafe` block marker. -/
inductive UnsafeSource
  | CompilerGenerated
  | UserProvided
deriving DecidableEq

/-- Mirror of `ast::BlockCheckMode`. -/
inductive BlockCheckMode
  | DefaultBlock
  | UnsafeBlock (source : UnsafeSource)
deriving DecidableEq

/-- Mirror of `enum UnsafeContext` in effect.rs (lines 25-30). -/
inductive UnsafeContext
  | SafeContext
  | UnsafeFn
  | UnsafeBlock (id : Nat)
deriving DecidableEq

/-- The fragment of `ty::sty` the checker inspects: bare function types
with their declared unsafety, raw pointers, owning pointers (`ty_uniq`),
references (`ty_rptr`, region and mutability dropped as the source's
pattern `ty::mt{ty, ..}` drops them), the string type, and everything
else collapsed. -/
inductive Ty
  | ty_bare_fn (u : Unsafety)
  | ty_ptr
  | ty_uniq (t : Ty)
  | ty_rptr (t : Ty)
  | ty_str
  | ty_other
deriving DecidableEq

/-- Mirror of `type_is_unsafe_function` (effect.rs lines 32-37). -/
def type_is_unsafe_function (t : Ty) : Bool :=
  match t with
  | .ty_bare_fn f => f == Unsafety.Unsafe
  | _ => false

/-- Mirror of `ast::Mutability`. -/
inductive Mutability
  | MutMutable
  | MutImmutable
deriving DecidableEq

/-- Resolution of a path expression: only `def::DefStatic(_, mutbl)`
matters to the checker. -/
inductive Def
  | DefStatic (did : Nat) (mutbl : Bool)
  | DefOther
deriving DecidableEq

mutual
/-- The expression forms `visit_expr` (effect.rs lines 140-186)
distinguishes, each carrying its span, its resolved type, and its
sub-structure; `ExprMethodCall` carries the method-map type of the callee,
`ExprPath` its resolution.  `ExprLit` stands for any expression with no
sub-expressions that matches none of the checked forms. -/
inductive Expr
  | ExprMethodCall (span : Nat) (ty : Ty) (methodTy : Ty) (args : List Expr)
  | ExprCall (span : Nat) (ty : Ty) (f : Expr) (args : List Expr)
  | ExprUnaryDeref (span : Nat) (ty : Ty) (base : Expr)
  | ExprAssign (span : Nat) (ty : Ty) (lhs : Expr) (rhs : Expr)
  | ExprAssignOp (span : Nat) (ty : Ty) (lhs : Expr) (rhs : Expr)
  | ExprAddrOf (span : Nat) (ty : Ty) (m : Mutability) (base : Expr)
  | ExprIndex (span : Nat) (ty : Ty) (base : Expr) (idx : Expr)
  | ExprInlineAsm (span : Nat) (ty : Ty)
  | ExprPath (span : Nat) (ty : Ty) (res : Def)
  | ExprBlock (span : Nat) (ty : Ty) (b : Block)
  | ExprClosure (span : Nat) (ty : Ty) (body : Block)
  | ExprLit (span : Nat) (ty : Ty)

/-- Statements: an expression statement, or a nested item. -/
inductive Stmt
  | StmtExpr (e : Expr)
  | StmtItem (i : Item)

/-- Mirror of `ast::Block`: stable id, check mode, contents. -/
inductive Block
  | mk (id : Nat) (rules : BlockCheckMode) (stmts : List Stmt)

/-- Items the walk reaches: item-level functions (`visit_fn` with
`FkItemFn`), methods (`FkMethod`), and statics whose initializer
expression the default walk visits in the current context. -/
inductive Item
  | ItemFn (u : Unsafety) (body : Block)
  | ItemImplMethod (u : Unsafety) (body : Block)
  | ItemStatic (m : Mutability) (e : Expr)
end

/-- The resolved type of an expression node (`ty::node_id_to_type`). -/
def Expr.ty : Expr → Ty
  | .ExprMethodCall _ t _ _ => t
  | .ExprCall _ t _ _ => t
  | .ExprUnaryDeref _ t _ => t
  | .ExprAssign _ t _ _ => t
  | .ExprAssignOp _ t _ _ => t
  | .ExprAddrOf _ t _ _ => t
  | .ExprIndex _ t _ _ => t
  | .ExprInlineAsm _ t => t
  | .ExprPath _ t _ => t
  | .ExprBlock _ t _ => t
  | .ExprClosure _ t _ => t
  | .ExprLit _ t => t

/-- Mirror of `visit::FnKind`. -/
inductive FnKind
  | FkItemFn (u : Unsafety)
  | FkMethod (u : Unsafety)
  | FkClosure
deriving DecidableEq

/-- One emitted diagnostic: span, error code (133/134/135 for
E0133/E0134/E0135) and message, as `span_err!` records them. -/
structure Diagnostic where
  span : Nat
  code : Nat
  msg : String
deriving DecidableEq

/-- The checker's state: the visitor field `unsafe_context`, the session
diagnostic sink, and the `tcx.used_unsafe` set. -/
structure St where
  unsafeContext : UnsafeContext
  diagnostics : List Diagnostic
  usedUnsafe : Finset Nat

/-- Mirror of `span_err!`: append one diagnostic to the sink. -/
def spanErr (st : St) (span : Nat) (code : Nat) (msg : String) : St :=
  { st with diagnostics := st.diagnostics ++ [⟨span, code, msg⟩] }

/-- Mirror of `EffectCheckVisitor::require_unsafe` (effect.rs lines
47-62). -/
def requireUnsafe (st : St) (span : Nat) (description : String) : St :=
  match st.unsafeContext with
  | .SafeContext =>
      spanErr st span 133 (description ++ " requires unsafe function or block")
  | .UnsafeBlock blockId =>
      { st with usedUnsafe := insert blockId st.usedUnsafe }
  | .UnsafeFn => st

/-- Mirror of `EffectCheckVisitor::check_str_index` (effect.rs lines
64-82): only an `ExprIndex` is inspected; its base's type must be `ty_str`
behind one `ty_uniq`/`ty_rptr` (code 134) or directly (code 135). -/
def checkStrIndex (st : St) (e : Expr) : St :=
  match e with
  | .ExprIndex span _ base _ =>
      match base.ty with
      | .ty_uniq t =>
          if t == Ty.ty_str then
            spanErr st span 134 "modification of string types is not allowed"
          else st
      | .ty_rptr t =>
          if t == Ty.ty_str then
            spanErr st span 134 "modification of string types is not allowed"
          else st
      | .ty_str =>
          spanErr st span 135 "modification of string types is not allowed"
      | _ => st
  | _ => st

/-- The context-mutation step at block entry (effect.rs lines 111-133):
a new `UnsafeBlock(block.id)` context exactly when the block carries an
explicit marker and either the current context is `SafeContext` or the
marker is `CompilerGenerated`. -/
def blockEnterContext (ctx : UnsafeContext) (b : Block) : UnsafeContext :=
  match b with
  | .mk id rules _ =>
      match rules with
      | .DefaultBlock => ctx
      | .UnsafeBlock source =>
          if ctx == UnsafeContext.SafeContext || source == UnsafeSource.CompilerGenerated
          then UnsafeContext.UnsafeBlock id
          else ctx

/-- The context-mutation step at function entry (effect.rs lines 89-102):
the `(is_item_fn, is_unsafe_fn)` pair followed by the two-way `if`. -/
def fnEnterContext (ctx : UnsafeContext) (fk : FnKind) : UnsafeContext :=
  let flags : Bool × Bool :=
    match fk with
    | .FkItemFn u => (true, u == Unsafety.Unsafe)
    | .FkMethod u => (true, u == Unsafety.Unsafe)
    | .FkClosure => (false, false)
  if flags.2 then UnsafeContext.UnsafeFn
  else if flags.1 then UnsafeContext.SafeContext
  else ctx

mutual
/-- Mirror of `visit_expr` (effect.rs lines 140-186): the
operation-specific check, then the generic walk into sub-expressions. -/
def visitExpr (st : St) (e : Expr) : St :=
  match e with
  | .ExprMethodCall span _ methodTy args =>
      let st1 := if type_is_unsafe_function methodTy
                 then requireUnsafe st span "invocation of unsafe method"
                 else st
      visitExprList st1 args
  | .ExprCall span _ f args =>
      let st1 := if type_is_unsafe_function f.ty
                 then requireUnsafe st span "call to unsafe function"
                 else st
      visitExprList (visitExpr st1 f) args
  | .ExprUnaryDeref span _ base =>
      let st1 := match base.ty with
                 | .ty_ptr => requireUnsafe st span "dereference of unsafe pointer"
                 | _ => st
      visitExpr st1 base
  | .ExprAssign _ _ lhs rhs =>
      let st1 := checkStrIndex st lhs
      visitExpr (visitExpr st1 lhs) rhs
  | .ExprAssignOp _ _ lhs rhs =>
      let st1 := checkStrIndex st lhs
      visitExpr (visitExpr st1 lhs) rhs
  | .ExprAddrOf _ _ m base =>
      let st1 := match m with
                 | .MutMutable => checkStrIndex st base
                 | .MutImmutable => st
      visitExpr st1 base
  | .ExprIndex _ _ base idx =>
      visitExpr (visitExpr st base) idx
  | .ExprInlineAsm span _ =>
      requireUnsafe st span "use of inline assembly"
  | .ExprPath span _ res =>
      match res with
      | .DefStatic _ true => requireUnsafe st span "use of mutable static"
      | _ => st
  | .ExprBlock _ _ b => visitBlock st b
  | .ExprClosure _ _ body => visitFn st FnKind.FkClosure body
  | .ExprLit _ _ => st
termination_by (sizeOf e, 0)

/-- The generic walk over an expression list. -/
def visitExprList (st : St) (es : List Expr) : St :=
  match es with
  | [] => st
  | e :: rest => visitExprList (visitExpr st e) rest
termination_by (sizeOf es, 0)

/-- Mirror of `visit_block` (effect.rs lines 109-138): save context,
apply the entry rule, walk contents, restore context. -/
def visitBlock (st : St) (b : Block) : St :=
  match b with
  | .mk _ _ stmts =>
      let inner := visitStmtList
        { st with unsafeContext := blockEnterContext st.unsafeContext b } stmts
      { inner with unsafeContext := st.unsafeContext }
termination_by (sizeOf b, 0)

/-- The generic walk over a statement list. -/
def visitStmtList (st : St) (ss : List Stmt) : St :=
  match ss with
  | [] => st
  | s :: rest => visitStmtList (visitStmt st s) rest
termination_by (sizeOf ss, 0)

/-- The generic walk over one statement. -/
def visitStmt (st : St) (s : Stmt) : St :=
  match s with
  | .StmtExpr e => visitExpr st e
  | .StmtItem i => visitItem st i
termination_by (sizeOf s, 0)

/-- The default item walk: functions and methods reach `visit_fn` with
the matching `FnKind`; a static's initializer is visited in the current
context. -/
def visitItem (st : St) (i : Item) : St :=
  match i with
  | .ItemFn u body => visitFn st (FnKind.FkItemFn u) body
  | .ItemImplMethod u body => visitFn st (FnKind.FkMethod u) body
  | .ItemStatic _ e => visitExpr st e
termination_by (sizeOf i, 0)

/-- Mirror of `visit_fn` (effect.rs lines 86-107): save context, apply
the entry rule, walk the body block, restore context. -/
def visitFn (st : St) (fk : FnKind) (body : Block) : St :=
  let inner := visitBlock
    { st with unsafeContext := fnEnterContext st.unsafeContext fk } body
  { inner with unsafeContext := st.unsafeContext }
termination_by (sizeOf body, 1)
end

/-- A crate: a list of top-level items. -/
structure Crate where
  items : List Item

/-- The walk over the crate's items, as `visit::walk_crate` drives it. -/
def visitItemList (st : St) (items : List Item) : St :=
  match items with
  | [] => st
  | i :: rest => visitItemList (visitItem st i) rest

/-- The fresh visitor state `check_crate` builds (effect.rs lines
190-193): `SafeContext`, empty sinks. -/
def initState : St := ⟨UnsafeContext.SafeContext, [], ∅⟩

/-- Mirror of `check_crate` (effect.rs lines 189-196). -/
def checkCrate (c : Crate) : St := visitItemList initState c.items

end Effect

namespace Effect

/-! Helper lemmas.

The checker only reads the current context and appends to the two sinks,
so every visit function commutes with prepending accumulated output.
`stApp s t` is the state `t` with the accumulations of `s` prepended. -/

/-- State with prepended accumulations. -/
def stApp (s t : St) : St :=
  ⟨t.unsafeContext, s.diagnostics ++ t.diagnostics, s.usedUnsafe ∪ t.usedUnsafe⟩

theorem stApp_setCtx (s t : St) (c : UnsafeContext) :
    { stApp s t with unsafeContext := c } = stApp s { t with unsafeContext := c } := rfl

theorem spanErr_stApp (s t : St) (sp c : Nat) (m : String) :
    spanErr (stApp s t) sp c m = stApp s (spanErr t sp c m) := by
  simp [spanErr, stApp]

theorem requireUnsafe_stApp (s t : St) (sp : Nat) (m : String) :
    requireUnsafe (stApp s t) sp m = stApp s (requireUnsafe t sp m) := by
  rcases t with ⟨ctx, d, u⟩
  cases ctx <;> simp [requireUnsafe, stApp, spanErr, Finset.union_insert]

theorem checkStrIndex_stApp (s t : St) (e : Expr) :
    checkStrIndex (stApp s t) e = stApp s (checkStrIndex t e) := by
  cases e <;> try rfl
  case ExprIndex sp ty base idx =>
    simp only [checkStrIndex]
    split <;>
      first
        | rfl
        | apply spanErr_stApp
        | (split <;> first | apply spanErr_stApp | rfl)

end Effect

namespace Effect

mutual
/-- Visiting an expression commutes with prepending accumulated output. -/
theorem visitExpr_stApp (s t : St) (e : Expr) :
    visitExpr (stApp s t) e = stApp s (visitExpr t e) := by
  cases e with
  | ExprMethodCall sp ty mty args =>
      simp only [visitExpr]
      split
      · rw [requireUnsafe_stApp]; exact visitExprList_stApp s _ args
      · exact visitExprList_stApp s t args
  | ExprCall sp ty f args =>
      simp only [visitExpr]
      split
      · rw [requireUnsafe_stApp, visitExpr_stApp s _ f]; exact visitExprList_stApp s _ args
      · rw [visitExpr_stApp s t f]; exact visitExprList_stApp s _ args
  | ExprUnaryDeref sp ty base =>
      simp only [visitExpr]
      split
      · rw [requireUnsafe_stApp]; exact visitExpr_stApp s _ base
      · exact visitExpr_stApp s t base
  | ExprAssign sp ty lhs rhs =>
      simp only [visitExpr]
      rw [checkStrIndex_stApp, visitExpr_stApp s _ lhs]; exact visitExpr_stApp s _ rhs
  | ExprAssignOp sp ty lhs rhs =>
      simp only [visitExpr]
      rw [checkStrIndex_stApp, visitExpr_stApp s _ lhs]; exact visitExpr_stApp s _ rhs
  | ExprAddrOf sp ty m base =>
      cases m <;> simp only [visitExpr]
      · rw [checkStrIndex_stApp]; exact visitExpr_stApp s _ base
      · exact visitExpr_stApp s t base
  | ExprIndex sp ty base idx =>
      simp only [visitExpr]
      rw [visitExpr_stApp s t base]; exact visitExpr_stApp s _ idx
  | ExprInlineAsm sp ty =>
      simp only [visitExpr]; exact requireUnsafe_stApp s t sp _
  | ExprPath sp ty res =>
      cases res with
      | DefStatic did mb =>
          cases mb <;> simp only [visitExpr]
          exact requireUnsafe_stApp s t sp _
      | DefOther => simp only [visitExpr]
  | ExprBlock sp ty b =>
      simp only [visitExpr]; exact visitBlock_stApp s t b
  | ExprClosure sp ty body =>
      simp only [visitExpr]; exact visitFn_stApp s t FnKind.FkClosure body
  | ExprLit sp ty => simp only [visitExpr]
termination_by (sizeOf e, 0)

/-- List version of `visitExpr_stApp`. -/
theorem visitExprList_stApp (s t : St) (es : List Expr) :
    visitExprList (stApp s t) es = stApp s (visitExprList t es) := by
  cases es with
  | nil => simp only [visitExprList]
  | cons e rest =>
      simp only [visitExprList]
      rw [visitExpr_stApp s t e]; exact visitExprList_stApp s _ rest
termination_by (sizeOf es, 0)

/-- Visiting a block commutes with prepending accumulated output. -/
theorem visitBlock_stApp (s t : St) (b : Block) :
    visitBlock (stApp s t) b = stApp s (visitBlock t b) := by
  cases b with
  | mk id rules stmts =>
      simp only [visitBlock]
      show { visitStmtList
          (stApp s { t with unsafeContext :=
            blockEnterContext t.unsafeContext (Block.mk id rules stmts) }) stmts
          with unsafeContext := t.unsafeContext } = _
      rw [visitStmtList_stApp]
      rfl
termination_by (sizeOf b, 0)

/-- List version for statements. -/
theorem visitStmtList_stApp (s t : St) (ss : List Stmt) :
    visitStmtList (stApp s t) ss = stApp s (visitStmtList t ss) := by
  cases ss with
  | nil => simp only [visitStmtList]
  | cons s0 rest =>
      simp only [visitStmtList]
      rw [visitStmt_stApp s t s0]; exact visitStmtList_stApp s _ rest
termination_by (sizeOf ss, 0)

/-- Statement version. -/
theorem visitStmt_stApp (s t : St) (s0 : Stmt) :
    visitStmt (stApp s t) s0 = stApp s (visitStmt t s0) := by
  cases s0 with
  | StmtExpr e => simp only [visitStmt]; exact visitExpr_stApp s t e
  | StmtItem i => simp only [visitStmt]; exact visitItem_stApp s t i
termination_by (sizeOf s0, 0)

/-- Item version. -/
theorem visitItem_stApp (s t : St) (i : Item) :
    visitItem (stApp s t) i = stApp s (visitItem t i) := by
  cases i with
  | ItemFn u body => simp only [visitItem]; exact visitFn_stApp s t (FnKind.FkItemFn u) body
  | ItemImplMethod u body =>
      simp only [visitItem]; exact visitFn_stApp s t (FnKind.FkMethod u) body
  | ItemStatic m e => simp only [visitItem]; exact visitExpr_stApp s t e
termination_by (sizeOf i, 0)

/-- Function version. -/
theorem visitFn_stApp (s t : St) (fk : FnKind) (body : Block) :
    visitFn (stApp s t) fk body = stApp s (visitFn t fk body) := by
  simp only [visitFn]
  show { visitBlock
      (stApp s { t with unsafeContext := fnEnterContext t.unsafeContext fk }) body
      with unsafeContext := t.unsafeContext } = _
  rw [visitBlock_stApp]
  rfl
termination_by (sizeOf body, 1)
end

/-- Crate-walk version of the homomorphism lemma. -/
theorem visitItemList_stApp (s t : St) (items : List Item) :
    visitItemList (stApp s t) items = stApp s (visitItemList t items) := by
  induction items generalizing t with
  | nil => simp only [visitItemList]
  | cons i rest ih =>
      simp only [visitItemList]
      rw [visitItem_stApp s t i]; exact ih _

end Effect

namespace Effect

/-! Context preservation: every visit restores the context it found. -/

theorem requireUnsafe_ctx (st : St) (sp : Nat) (m : String) :
    (requireUnsafe st sp m).unsafeContext = st.unsafeContext := by
  rcases st with ⟨ctx, d, u⟩
  cases ctx <;> rfl

theorem checkStrIndex_ctx (st : St) (e : Expr) :
    (checkStrIndex st e).unsafeContext = st.unsafeContext := by
  cases e <;> try rfl
  case ExprIndex sp ty base idx =>
    simp only [checkStrIndex]
    split <;> first | rfl | (split <;> rfl)

theorem visitBlock_ctx (st : St) (b : Block) :
    (visitBlock st b).unsafeContext = st.unsafeContext := by
  cases b with
  | mk id rules stmts => simp only [visitBlock]

theorem visitFn_ctx (st : St) (fk : FnKind) (body : Block) :
    (visitFn st fk body).unsafeContext = st.unsafeContext := by
  simp only [visitFn]

mutual
/-- Visiting an expression leaves the current context unchanged. -/
theorem visitExpr_ctx (st : St) (e : Expr) :
    (visitExpr st e).unsafeContext = st.unsafeContext := by
  cases e with
  | ExprMethodCall sp ty mty args =>
      simp only [visitExpr]
      rw [visitExprList_ctx]
      split
      · exact requireUnsafe_ctx st sp _
      · rfl
  | ExprCall sp ty f args =>
      simp only [visitExpr]
      rw [visitExprList_ctx, visitExpr_ctx]
      split
      · exact requireUnsafe_ctx st sp _
      · rfl
  | ExprUnaryDeref sp ty base =>
      simp only [visitExpr]
      rw [visitExpr_ctx]
      split
      · exact requireUnsafe_ctx st sp _
      · rfl
  | ExprAssign sp ty lhs rhs =>
      simp only [visitExpr]
      rw [visitExpr_ctx, visitExpr_ctx, checkStrIndex_ctx]
  | ExprAssignOp sp ty lhs rhs =>
      simp only [visitExpr]
      rw [visitExpr_ctx, visitExpr_ctx, checkStrIndex_ctx]
  | ExprAddrOf sp ty m base =>
      cases m <;> simp only [visitExpr]
      · rw [visitExpr_ctx, checkStrIndex_ctx]
      · rw [visitExpr_ctx]
  | ExprIndex sp ty base idx =>
      simp only [visitExpr]
      rw [visitExpr_ctx, visitExpr_ctx]
  | ExprInlineAsm sp ty =>
      simp only [visitExpr]; exact requireUnsafe_ctx st sp _
  | ExprPath sp ty res =>
      cases res with
      | DefStatic did mb =>
          cases mb <;> simp only [visitExpr]
          exact requireUnsafe_ctx st sp _
      | DefOther => simp only [visitExpr]
  | ExprBlock sp ty b =>
      simp only [visitExpr]; exact visitBlock_ctx st b
  | ExprClosure sp ty body =>
      simp only [visitExpr]; exact visitFn_ctx st FnKind.FkClosure body
  | ExprLit sp ty => simp only [visitExpr]
termination_by (sizeOf e, 0)

/-- List version of `visitExpr_ctx`. -/
theorem visitExprList_ctx (st : St) (es : List Expr) :
    (visitExprList st es).unsafeContext = st.unsafeContext := by
  cases es with
  | nil => simp only [visitExprList]
  | cons e rest =>
      simp only [visitExprList]
      rw [visitExprList_ctx, visitExpr_ctx]
termination_by (sizeOf es, 0)

/-- List version for statements. -/
theorem visitStmtList_ctx (st : St) (ss : List Stmt) :
    (visitStmtList st ss).unsafeContext = st.unsafeContext := by
  cases ss with
  | nil => simp only [visitStmtList]
  | cons s0 rest =>
      simp only [visitStmtList]
      rw [visitStmtList_ctx, visitStmt_ctx]
termination_by (sizeOf ss, 0)

/-- Statement version. -/
theorem visitStmt_ctx (st : St) (s0 : Stmt) :
    (visitStmt st s0).unsafeContext = st.unsafeContext := by
  cases s0 with
  | StmtExpr e => simp only [visitStmt]; exact visitExpr_ctx st e
  | StmtItem i => simp only [visitStmt]; exact visitItem_ctx st i

/-- Item version. -/
theorem visitItem_ctx (st : St) (i : Item) :
    (visitItem st i).unsafeContext = st.unsafeContext := by
  cases i with
  | ItemFn u body => simp only [visitItem]; exact visitFn_ctx st _ body
  | ItemImplMethod u body => simp only [visitItem]; exact visitFn_ctx st _ body
  | ItemStatic m e => simp only [visitItem]; exact visitExpr_ctx st e
end

end Effect

namespace Effect

/-! Missing-context diagnostics (code 133) are never emitted while the
context is not `SafeContext`, as long as the visited region contains no
nested item-level function or method (which would reset the context). -/

/-- The code-133 (missing unsafe context) diagnostics accumulated so far. -/
def errs133 (st : St) : List Diagnostic :=
  st.diagnostics.filter (fun d => d.code == 133)

theorem errs133_setCtx (st : St) (c : UnsafeContext) :
    errs133 { st with unsafeContext := c } = errs133 st := rfl

theorem errs133_spanErr_ne (st : St) (sp c : Nat) (m : String)
    (h : (c == 133) = false) :
    errs133 (spanErr st sp c m) = errs133 st := by
  simp [errs133, spanErr, List.filter_append, h]

theorem errs133_requireUnsafe (st : St) (sp : Nat) (m : String)
    (h : st.unsafeContext ≠ UnsafeContext.SafeContext) :
    errs133 (requireUnsafe st sp m) = errs133 st := by
  rcases st with ⟨ctx, d, u⟩
  cases ctx with
  | SafeContext => exact absurd rfl h
  | UnsafeFn => rfl
  | UnsafeBlock i => rfl

theorem errs133_checkStrIndex (st : St) (e : Expr) :
    errs133 (checkStrIndex st e) = errs133 st := by
  cases e <;> try rfl
  case ExprIndex sp ty base idx =>
    simp only [checkStrIndex]
    split <;>
      first
        | rfl
        | (apply errs133_spanErr_ne; rfl)
        | (split <;> first | (apply errs133_spanErr_ne; rfl) | rfl)

theorem blockEnterContext_ne (ctx : UnsafeContext) (b : Block)
    (h : ctx ≠ UnsafeContext.SafeContext) :
    blockEnterContext ctx b ≠ UnsafeContext.SafeContext := by
  cases b with
  | mk id rules stmts =>
      cases rules with
      | DefaultBlock => exact h
      | UnsafeBlock src =>
          simp only [blockEnterContext]
          split
          · simp
          · exact h

theorem fnEnterContext_closure (ctx : UnsafeContext) :
    fnEnterContext ctx FnKind.FkClosure = ctx := rfl

mutual
/-- No nested item-level function or method definition occurs in the
expression. -/
def exprNoReset : Expr → Bool
  | .ExprMethodCall _ _ _ args => exprListNoReset args
  | .ExprCall _ _ f args => exprNoReset f && exprListNoReset args
  | .ExprUnaryDeref _ _ base => exprNoReset base
  | .ExprAssign _ _ lhs rhs => exprNoReset lhs && exprNoReset rhs
  | .ExprAssignOp _ _ lhs rhs => exprNoReset lhs && exprNoReset rhs
  | .ExprAddrOf _ _ _ base => exprNoReset base
  | .ExprIndex _ _ base idx => exprNoReset base && exprNoReset idx
  | .ExprInlineAsm _ _ => true
  | .ExprPath _ _ _ => true
  | .ExprBlock _ _ b => blockNoReset b
  | .ExprClosure _ _ body => blockNoReset body
  | .ExprLit _ _ => true

/-- List version of `exprNoReset`. -/
def exprListNoReset : List Expr → Bool
  | [] => true
  | e :: rest => exprNoReset e && exprListNoReset rest

/-- No nested item-level function or method definition occurs in the
block. -/
def blockNoReset : Block → Bool
  | .mk _ _ stmts => stmtListNoReset stmts

/-- List version for statements. -/
def stmtListNoReset : List Stmt → Bool
  | [] => true
  | s :: rest => stmtNoReset s && stmtListNoReset rest

/-- Statement version. -/
def stmtNoReset : Stmt → Bool
  | .StmtExpr e => exprNoReset e
  | .StmtItem i => itemNoReset i

/-- Nested function and method items reset the context; statics do not. -/
def itemNoReset : Item → Bool
  | .ItemFn _ _ => false
  | .ItemImplMethod _ _ => false
  | .ItemStatic _ e => exprNoReset e
end

end Effect

namespace Effect

mutual
/-- In a non-`SafeContext` state, visiting an expression free of nested
item-level definitions adds no code-133 diagnostic. -/
theorem visitExpr_no133 (st : St) (e : Expr)
    (h : st.unsafeContext ≠ UnsafeContext.SafeContext)
    (hn : exprNoReset e = true) :
    errs133 (visitExpr st e) = errs133 st := by
  cases e with
  | ExprMethodCall sp ty mty args =>
      simp only [exprNoReset] at hn
      simp only [visitExpr]
      split
      · have h1 : (requireUnsafe st sp "invocation of unsafe method").unsafeContext ≠
            UnsafeContext.SafeContext := by rw [requireUnsafe_ctx]; exact h
        rw [visitExprList_no133 _ args h1 hn, errs133_requireUnsafe st sp _ h]
      · exact visitExprList_no133 st args h hn
  | ExprCall sp ty f args =>
      simp only [exprNoReset, Bool.and_eq_true] at hn
      simp only [visitExpr]
      split
      · have h1 : (requireUnsafe st sp "call to unsafe function").unsafeContext ≠
            UnsafeContext.SafeContext := by rw [requireUnsafe_ctx]; exact h
        have h2 : (visitExpr (requireUnsafe st sp "call to unsafe function") f).unsafeContext ≠
            UnsafeContext.SafeContext := by rw [visitExpr_ctx, requireUnsafe_ctx]; exact h
        rw [visitExprList_no133 _ args h2 hn.2, visitExpr_no133 _ f h1 hn.1,
            errs133_requireUnsafe st sp _ h]
      · have h2 : (visitExpr st f).unsafeContext ≠ UnsafeContext.SafeContext := by
          rw [visitExpr_ctx]; exact h
        rw [visitExprList_no133 _ args h2 hn.2, visitExpr_no133 st f h hn.1]
  | ExprUnaryDeref sp ty base =>
      simp only [exprNoReset] at hn
      simp only [visitExpr]
      split
      · have h1 : (requireUnsafe st sp "dereference of unsafe pointer").unsafeContext ≠
            UnsafeContext.SafeContext := by rw [requireUnsafe_ctx]; exact h
        rw [visitExpr_no133 _ base h1 hn, errs133_requireUnsafe st sp _ h]
      · exact visitExpr_no133 st base h hn
  | ExprAssign sp ty lhs rhs =>
      simp only [exprNoReset, Bool.and_eq_true] at hn
      simp only [visitExpr]
      have h1 : (checkStrIndex st lhs).unsafeContext ≠ UnsafeContext.SafeContext := by
        rw [checkStrIndex_ctx]; exact h
      have h2 : (visitExpr (checkStrIndex st lhs) lhs).unsafeContext ≠
          UnsafeContext.SafeContext := by rw [visitExpr_ctx, checkStrIndex_ctx]; exact h
      rw [visitExpr_no133 _ rhs h2 hn.2, visitExpr_no133 _ lhs h1 hn.1,
          errs133_checkStrIndex st lhs]
  | ExprAssignOp sp ty lhs rhs =>
      simp only [exprNoReset, Bool.and_eq_true] at hn
      simp only [visitExpr]
      have h1 : (checkStrIndex st lhs).unsafeContext ≠ UnsafeContext.SafeContext := by
        rw [checkStrIndex_ctx]; exact h
      have h2 : (visitExpr (checkStrIndex st lhs) lhs).unsafeContext ≠
          UnsafeContext.SafeContext := by rw [visitExpr_ctx, checkStrIndex_ctx]; exact h
      rw [visitExpr_no133 _ rhs h2 hn.2, visitExpr_no133 _ lhs h1 hn.1,
          errs133_checkStrIndex st lhs]
  | ExprAddrOf sp ty m base =>
      simp only [exprNoReset] at hn
      cases m <;> simp only [visitExpr]
      · have h1 : (checkStrIndex st base).unsafeContext ≠ UnsafeContext.SafeContext := by
          rw [checkStrIndex_ctx]; exact h
        rw [visitExpr_no133 _ base h1 hn, errs133_checkStrIndex st base]
      · exact visitExpr_no133 st base h hn
  | ExprIndex sp ty base idx =>
      simp only [exprNoReset, Bool.and_eq_true] at hn
      simp only [visitExpr]
      have h2 : (visitExpr st base).unsafeContext ≠ UnsafeContext.SafeContext := by
        rw [visitExpr_ctx]; exact h
      rw [visitExpr_no133 _ idx h2 hn.2, visitExpr_no133 st base h hn.1]
  | ExprInlineAsm sp ty =>
      simp only [visitExpr]
      exact errs133_requireUnsafe st sp _ h
  | ExprPath sp ty res =>
      cases res with
      | DefStatic did mb =>
          cases mb <;> simp only [visitExpr]
          exact errs133_requireUnsafe st sp _ h
      | DefOther => simp only [visitExpr]
  | ExprBlock sp ty b =>
      simp only [exprNoReset] at hn
      simp only [visitExpr]
      exact visitBlock_no133 st b h hn
  | ExprClosure sp ty body =>
      simp only [exprNoReset] at hn
      simp only [visitExpr, visitFn]
      rw [errs133_setCtx]
      show errs133 (visitBlock { st with unsafeContext := st.unsafeContext } body) = _
      exact visitBlock_no133 { st with unsafeContext := st.unsafeContext } body h hn
  | ExprLit sp ty => simp only [visitExpr]
termination_by (sizeOf e, 0)

/-- List version of `visitExpr_no133`. -/
theorem visitExprList_no133 (st : St) (es : List Expr)
    (h : st.unsafeContext ≠ UnsafeContext.SafeContext)
    (hn : exprListNoReset es = true) :
    errs133 (visitExprList st es) = errs133 st := by
  cases es with
  | nil => simp only [visitExprList]
  | cons e rest =>
      simp only [exprListNoReset, Bool.and_eq_true] at hn
      simp only [visitExprList]
      have h1 : (visitExpr st e).unsafeContext ≠ UnsafeContext.SafeContext := by
        rw [visitExpr_ctx]; exact h
      rw [visitExprList_no133 _ rest h1 hn.2, visitExpr_no133 st e h hn.1]
termination_by (sizeOf es, 0)

/-- In a non-`SafeContext` state, visiting a block free of nested
item-level definitions adds no code-133 diagnostic. -/
theorem visitBlock_no133 (st : St) (b : Block)
    (h : st.unsafeContext ≠ UnsafeContext.SafeContext)
    (hn : blockNoReset b = true) :
    errs133 (visitBlock st b) = errs133 st := by
  cases b with
  | mk id rules stmts =>
      simp only [blockNoReset] at hn
      simp only [visitBlock]
      rw [errs133_setCtx]
      have h1 : ({ st with unsafeContext :=
          blockEnterContext st.unsafeContext (Block.mk id rules stmts) } : St).unsafeContext ≠
          UnsafeContext.SafeContext := by
        show blockEnterContext st.unsafeContext (Block.mk id rules stmts) ≠
          UnsafeContext.SafeContext
        exact blockEnterContext_ne st.unsafeContext _ h
      rw [visitStmtList_no133 _ stmts h1 hn]
      rfl
termination_by (sizeOf b, 0)

/-- List version for statements. -/
theorem visitStmtList_no133 (st : St) (ss : List Stmt)
    (h : st.unsafeContext ≠ UnsafeContext.SafeContext)
    (hn : stmtListNoReset ss = true) :
    errs133 (visitStmtList st ss) = errs133 st := by
  cases ss with
  | nil => simp only [visitStmtList]
  | cons s0 rest =>
      simp only [stmtListNoReset, Bool.and_eq_true] at hn
      simp only [visitStmtList]
      have h1 : (visitStmt st s0).unsafeContext ≠ UnsafeContext.SafeContext := by
        rw [visitStmt_ctx]; exact h
      rw [visitStmtList_no133 _ rest h1 hn.2, visitStmt_no133 st s0 h hn.1]
termination_by (sizeOf ss, 0)

/-- Statement version. -/
theorem visitStmt_no133 (st : St) (s0 : Stmt)
    (h : st.unsafeContext ≠ UnsafeContext.SafeContext)
    (hn : stmtNoReset s0 = true) :
    errs133 (visitStmt st s0) = errs133 st := by
  cases s0 with
  | StmtExpr e =>
      simp only [stmtNoReset] at hn
      simp only [visitStmt]
      exact visitExpr_no133 st e h hn
  | StmtItem i =>
      simp only [stmtNoReset] at hn
      simp only [visitStmt]
      exact visitItem_no133 st i h hn
termination_by (sizeOf s0, 0)

/-- Item version: only statics can occur, and they inherit the context. -/
theorem visitItem_no133 (st : St) (i : Item)
    (h : st.unsafeContext ≠ UnsafeContext.SafeContext)
    (hn : itemNoReset i = true) :
    errs133 (visitItem st i) = errs133 st := by
  cases i with
  | ItemFn u body => exact absurd hn (by simp [itemNoReset])
  | ItemImplMethod u body => exact absurd hn (by simp [itemNoReset])
  | ItemStatic m e =>
      simp only [itemNoReset] at hn
      simp only [visitItem]
      exact visitExpr_no133 st e h hn
termination_by (sizeOf i, 0)
end

end Effect

namespace Effect

theorem stApp_initState (d : List Diagnostic) (u : Finset Nat) :
    stApp ⟨UnsafeContext.SafeContext, d, u⟩ initState =
      ⟨UnsafeContext.SafeContext, d, u⟩ := by
  simp [stApp, initState]

/-- Claim C1: `require_unsafe` dispatches on the current context in exactly
three ways: in `SafeContext` it appends exactly one diagnostic whose message
is the description followed by " requires unsafe function or block" and
records nothing; in `UnsafeBlock id` it inserts `id` into the used-marker
set and emits no diagnostic; in `UnsafeFn` it does nothing at all. -/
theorem claimC1_require_dispatch (d : List Diagnostic) (u : Finset Nat)
    (sp : Nat) (desc : String) (i : Nat) :
    requireUnsafe ⟨UnsafeContext.SafeContext, d, u⟩ sp desc =
      ⟨UnsafeContext.SafeContext,
        d ++ [⟨sp, 133, desc ++ " requires unsafe function or block"⟩], u⟩
    ∧ requireUnsafe ⟨UnsafeContext.UnsafeBlock i, d, u⟩ sp desc =
      ⟨UnsafeContext.UnsafeBlock i, d, insert i u⟩
    ∧ requireUnsafe ⟨UnsafeContext.UnsafeFn, d, u⟩ sp desc =
      ⟨UnsafeContext.UnsafeFn, d, u⟩ :=
  ⟨rfl, rfl, rfl⟩

/-- Claim C2: on entering a block with an explicit marker, the context
becomes `UnsafeBlock` of this block's id exactly when the current context
is `SafeContext` or the marker is compiler-generated; a user-written marker
inside a non-safe context leaves the context unchanged, and a block with no
marker never changes the context. -/
theorem claimC2_block_entry_rule (ctx : UnsafeContext) (id : Nat)
    (src : UnsafeSource) (stmts : List Stmt) :
    ((ctx = UnsafeContext.SafeContext ∨ src = UnsafeSource.CompilerGenerated) →
      blockEnterContext ctx (Block.mk id (BlockCheckMode.UnsafeBlock src) stmts) =
        UnsafeContext.UnsafeBlock id)
    ∧ (ctx ≠ UnsafeContext.SafeContext → src = UnsafeSource.UserProvided →
      blockEnterContext ctx (Block.mk id (BlockCheckMode.UnsafeBlock src) stmts) = ctx)
    ∧ blockEnterContext ctx (Block.mk id BlockCheckMode.DefaultBlock stmts) = ctx := by
  refine ⟨?_, ?_, rfl⟩
  · intro h
    simp only [blockEnterContext]
    rcases h with h | h <;> simp [h]
  · intro h1 h2
    subst h2
    simp only [blockEnterContext]
    simp [h1]

/-- Witness for C2 at concrete inputs. -/
theorem claimC2_block_entry_rule_witness :
    blockEnterContext UnsafeContext.SafeContext
        (Block.mk 7 (BlockCheckMode.UnsafeBlock UnsafeSource.UserProvided) []) =
      UnsafeContext.UnsafeBlock 7
    ∧ blockEnterContext UnsafeContext.UnsafeFn
        (Block.mk 7 (BlockCheckMode.UnsafeBlock UnsafeSource.UserProvided) []) =
      UnsafeContext.UnsafeFn :=
  ⟨(claimC2_block_entry_rule UnsafeContext.SafeContext 7 UnsafeSource.UserProvided []).1
      (Or.inl rfl),
   (claimC2_block_entry_rule UnsafeContext.UnsafeFn 7 UnsafeSource.UserProvided []).2.1
      (by decide) rfl⟩

/-- Claim C3: a guarded operation inside a user-written unsafe block that is
directly nested in an active user-written unsafe block records only the
outer block's id; if the inner block is compiler-generated it records the
inner block's id instead.  Neither case emits a diagnostic. -/
theorem claimC3_nested_markers (outerId innerId spB spA : Nat) :
    ((visitBlock initState
        (Block.mk outerId (BlockCheckMode.UnsafeBlock UnsafeSource.UserProvided)
          [Stmt.StmtExpr (Expr.ExprBlock spB Ty.ty_other
            (Block.mk innerId (BlockCheckMode.UnsafeBlock UnsafeSource.UserProvided)
              [Stmt.StmtExpr (Expr.ExprInlineAsm spA Ty.ty_other)]))])).usedUnsafe =
      {outerId})
    ∧ ((visitBlock initState
        (Block.mk outerId (BlockCheckMode.UnsafeBlock UnsafeSource.UserProvided)
          [Stmt.StmtExpr (Expr.ExprBlock spB Ty.ty_other
            (Block.mk innerId (BlockCheckMode.UnsafeBlock UnsafeSource.CompilerGenerated)
              [Stmt.StmtExpr (Expr.ExprInlineAsm spA Ty.ty_other)]))])).usedUnsafe =
      {innerId})
    ∧ ((visitBlock initState
        (Block.mk outerId (BlockCheckMode.UnsafeBlock UnsafeSource.UserProvided)
          [Stmt.StmtExpr (Expr.ExprBlock spB Ty.ty_other
            (Block.mk innerId (BlockCheckMode.UnsafeBlock UnsafeSource.UserProvided)
              [Stmt.StmtExpr (Expr.ExprInlineAsm spA Ty.ty_other)]))])).diagnostics = [])
    ∧ ((visitBlock initState
        (Block.mk outerId (BlockCheckMode.UnsafeBlock UnsafeSource.UserProvided)
          [Stmt.StmtExpr (Expr.ExprBlock spB Ty.ty_other
            (Block.mk innerId (BlockCheckMode.UnsafeBlock UnsafeSource.CompilerGenerated)
              [Stmt.StmtExpr (Expr.ExprInlineAsm spA Ty.ty_other)]))])).diagnostics = []) := by
  refine ⟨?_, ?_, ?_, ?_⟩ <;>
    simp [visitBlock, visitStmtList, visitStmt, visitExpr, visitExprList, requireUnsafe,
      blockEnterContext, initState, spanErr]

/-- Claim C4: function entry sets the context to `UnsafeFn` for unsafe
item-level functions and methods, to `SafeContext` for other item-level
functions and methods, and leaves it unchanged for closures; hence a
guarded operation in a closure inside a safe item-level function yields
exactly one missing-context diagnostic. -/
theorem claimC4_fn_entry_and_closure (ctx : UnsafeContext)
    (outerB innerB spC spA : Nat) :
    fnEnterContext ctx (FnKind.FkItemFn Unsafety.Unsafe) = UnsafeContext.UnsafeFn
    ∧ fnEnterContext ctx (FnKind.FkItemFn Unsafety.Normal) = UnsafeContext.SafeContext
    ∧ fnEnterContext ctx (FnKind.FkMethod Unsafety.Unsafe) = UnsafeContext.UnsafeFn
    ∧ fnEnterContext ctx (FnKind.FkMethod Unsafety.Normal) = UnsafeContext.SafeContext
    ∧ fnEnterContext ctx FnKind.FkClosure = ctx
    ∧ (checkCrate ⟨[Item.ItemFn Unsafety.Normal
        (Block.mk outerB BlockCheckMode.DefaultBlock
          [Stmt.StmtExpr (Expr.ExprClosure spC Ty.ty_other
            (Block.mk innerB BlockCheckMode.DefaultBlock
              [Stmt.StmtExpr (Expr.ExprInlineAsm spA Ty.ty_other)]))])]⟩).diagnostics =
      [⟨spA, 133, "use of inline assembly requires unsafe function or block"⟩] := by
  refine ⟨rfl, rfl, rfl, rfl, rfl, ?_⟩
  simp [checkCrate, visitItemList, visitItem, visitFn, visitBlock, visitStmtList, visitStmt,
    visitExpr, requireUnsafe, fnEnterContext, blockEnterContext, initState, spanErr]

/-- Claim C5: after the checker finishes a function or a block node, the
context is exactly the one in effect immediately before entering it. -/
theorem claimC5_context_restored (st : St) (fk : FnKind) (body : Block) (b : Block) :
    (visitFn st fk body).unsafeContext = st.unsafeContext
    ∧ (visitBlock st b).unsafeContext = st.unsafeContext :=
  ⟨visitFn_ctx st fk body, visitBlock_ctx st b⟩

end Effect

namespace Effect

/-- Counterexample to claim C6: an assignment whose left-hand side is a
direct string-typed variable (a path expression, not an indexing
expression), inside a user-written unsafe block, produces no diagnostic at
all — `check_str_index` inspects only indexing expressions, so the claimed
"modification of string types is not allowed" diagnostic is not emitted. -/
theorem claimC6_counterexample :
    (checkCrate ⟨[Item.ItemFn Unsafety.Normal (Block.mk 1 BlockCheckMode.DefaultBlock
      [Stmt.StmtExpr (Expr.ExprBlock 2 Ty.ty_other
        (Block.mk 3 (BlockCheckMode.UnsafeBlock UnsafeSource.UserProvided)
          [Stmt.StmtExpr (Expr.ExprAssign 4 Ty.ty_other
            (Expr.ExprPath 5 Ty.ty_str Def.DefOther)
            (Expr.ExprLit 6 Ty.ty_other))]))])]⟩).diagnostics = [] := by
  simp [checkCrate, visitItemList, visitItem, visitFn, visitBlock, visitStmtList, visitStmt,
    visitExpr, visitExprList, requireUnsafe, checkStrIndex, fnEnterContext, blockEnterContext,
    initState, spanErr, Expr.ty]

/-- Claim C6 as amended: the string-mutation check fires only when the
assigned (or mutably borrowed) left-hand side is an indexing expression;
then, if the index base's type is the string type directly (code 135) or
behind one owning pointer or reference (code 134), the diagnostic
"modification of string types is not allowed" is emitted in every context
(its codes are distinct from the missing-context code 133 and no context
suppresses it), while a direct string-typed variable on the left-hand side
produces nothing. -/
theorem claimC6_str_index_amended (ctx : UnsafeContext) (d : List Diagnostic)
    (u : Finset Nat) (s0 s1 s2 s3 s4 : Nat) (t0 t1 : Ty) :
    (visitExpr ⟨ctx, d, u⟩ (Expr.ExprAssign s0 t0
        (Expr.ExprIndex s1 t1 (Expr.ExprPath s2 Ty.ty_str Def.DefOther)
          (Expr.ExprLit s3 Ty.ty_other))
        (Expr.ExprLit s4 Ty.ty_other)) =
      ⟨ctx, d ++ [⟨s1, 135, "modification of string types is not allowed"⟩], u⟩)
    ∧ (visitExpr ⟨ctx, d, u⟩ (Expr.ExprAssign s0 t0
        (Expr.ExprIndex s1 t1 (Expr.ExprPath s2 (Ty.ty_rptr Ty.ty_str) Def.DefOther)
          (Expr.ExprLit s3 Ty.ty_other))
        (Expr.ExprLit s4 Ty.ty_other)) =
      ⟨ctx, d ++ [⟨s1, 134, "modification of string types is not allowed"⟩], u⟩)
    ∧ (visitExpr ⟨ctx, d, u⟩ (Expr.ExprAssignOp s0 t0
        (Expr.ExprIndex s1 t1 (Expr.ExprPath s2 (Ty.ty_uniq Ty.ty_str) Def.DefOther)
          (Expr.ExprLit s3 Ty.ty_other))
        (Expr.ExprLit s4 Ty.ty_other)) =
      ⟨ctx, d ++ [⟨s1, 134, "modification of string types is not allowed"⟩], u⟩)
    ∧ (visitExpr ⟨ctx, d, u⟩ (Expr.ExprAddrOf s0 t0 Mutability.MutMutable
        (Expr.ExprIndex s1 t1 (Expr.ExprPath s2 Ty.ty_str Def.DefOther)
          (Expr.ExprLit s3 Ty.ty_other))) =
      ⟨ctx, d ++ [⟨s1, 135, "modification of string types is not allowed"⟩], u⟩)
    ∧ (visitExpr ⟨ctx, d, u⟩ (Expr.ExprAssign s0 t0
        (Expr.ExprPath s2 Ty.ty_str Def.DefOther) (Expr.ExprLit s4 Ty.ty_other)) =
      ⟨ctx, d, u⟩) := by
  refine ⟨?_, ?_, ?_, ?_, ?_⟩ <;>
    simp [visitExpr, checkStrIndex, Expr.ty, spanErr]

/-- Counterexample to claim C7: a call to an unsafe function in safe
context yields the message "call to unsafe function requires unsafe
function or block", not the claimed "invocation of unsafe operation
requires unsafe function or block". -/
theorem claimC7_counterexample :
    ((checkCrate ⟨[Item.ItemFn Unsafety.Normal (Block.mk 1 BlockCheckMode.DefaultBlock
        [Stmt.StmtExpr (Expr.ExprCall 2 Ty.ty_other
          (Expr.ExprPath 3 (Ty.ty_bare_fn Unsafety.Unsafe) Def.DefOther) [])])]⟩).diagnostics =
      [⟨2, 133, "call to unsafe function requires unsafe function or block"⟩])
    ∧ "call to unsafe function requires unsafe function or block" ≠
      "invocation of unsafe operation requires unsafe function or block" := by
  constructor
  · simp [checkCrate, visitItemList, visitItem, visitFn, visitBlock, visitStmtList, visitStmt,
      visitExpr, visitExprList, requireUnsafe, type_is_unsafe_function, fnEnterContext,
      blockEnterContext, initState, spanErr, Expr.ty]
  · decide

/-- Claim C7 as amended: a method call resolving to an unsafe function type
uses the description "invocation of unsafe method", and an ordinary call
uses "call to unsafe function"; in safe context the diagnostics carry those
messages followed by " requires unsafe function or block". -/
theorem claimC7_descriptions_amended (d : List Diagnostic) (u : Finset Nat)
    (sp s2 : Nat) (t : Ty) :
    (visitExpr ⟨UnsafeContext.SafeContext, d, u⟩
        (Expr.ExprMethodCall sp t (Ty.ty_bare_fn Unsafety.Unsafe) []) =
      ⟨UnsafeContext.SafeContext,
        d ++ [⟨sp, 133, "invocation of unsafe method requires unsafe function or block"⟩], u⟩)
    ∧ (visitExpr ⟨UnsafeContext.SafeContext, d, u⟩
        (Expr.ExprCall sp t
          (Expr.ExprPath s2 (Ty.ty_bare_fn Unsafety.Unsafe) Def.DefOther) []) =
      ⟨UnsafeContext.SafeContext,
        d ++ [⟨sp, 133, "call to unsafe function requires unsafe function or block"⟩], u⟩) := by
  constructor <;>
    simp [visitExpr, visitExprList, requireUnsafe, type_is_unsafe_function, Expr.ty, spanErr]

/-- Claim C8: within the body of an item-level function or method declared
unsafe (with no further nested item-level definition), no code-133
missing-context diagnostic is ever emitted — the context inside such a body
is never `SafeContext`. -/
theorem claimC8_no_missing_context (st : St) (fk : FnKind) (body : Block)
    (hk : fk = FnKind.FkItemFn Unsafety.Unsafe ∨ fk = FnKind.FkMethod Unsafety.Unsafe)
    (hn : blockNoReset body = true) :
    errs133 (visitFn st fk body) = errs133 st := by
  have hctx : fnEnterContext st.unsafeContext fk = UnsafeContext.UnsafeFn := by
    rcases hk with rfl | rfl <;> rfl
  simp only [visitFn, hctx]
  rw [errs133_setCtx]
  have h1 : ({ st with unsafeContext := UnsafeContext.UnsafeFn } : St).unsafeContext ≠
      UnsafeContext.SafeContext := by
    show UnsafeContext.UnsafeFn ≠ UnsafeContext.SafeContext
    simp
  rw [visitBlock_no133 _ body h1 hn]
  rfl

/-- Witness for C8 at a concrete unsafe function body. -/
theorem claimC8_no_missing_context_witness :
    (FnKind.FkItemFn Unsafety.Unsafe = FnKind.FkItemFn Unsafety.Unsafe ∨
      FnKind.FkItemFn Unsafety.Unsafe = FnKind.FkMethod Unsafety.Unsafe)
    ∧ blockNoReset (Block.mk 1 BlockCheckMode.DefaultBlock
        [Stmt.StmtExpr (Expr.ExprInlineAsm 2 Ty.ty_other)]) = true
    ∧ errs133 (visitFn initState (FnKind.FkItemFn Unsafety.Unsafe)
        (Block.mk 1 BlockCheckMode.DefaultBlock
          [Stmt.StmtExpr (Expr.ExprInlineAsm 2 Ty.ty_other)])) = errs133 initState :=
  ⟨Or.inl rfl,
   by simp [blockNoReset, stmtListNoReset, stmtNoReset, exprNoReset],
   claimC8_no_missing_context initState (FnKind.FkItemFn Unsafety.Unsafe)
     (Block.mk 1 BlockCheckMode.DefaultBlock
       [Stmt.StmtExpr (Expr.ExprInlineAsm 2 Ty.ty_other)])
     (Or.inl rfl)
     (by simp [blockNoReset, stmtListNoReset, stmtNoReset, exprNoReset])⟩

/-- Claim C9: running the pass a second time over the same tree, with the
shared sinks still holding the first run's output (the visitor itself is
rebuilt fresh, as `check_crate` does), leaves the diagnostic set and the
used-marker set exactly as after the first run: the pass is a deterministic
pure function of the tree. -/
theorem claimC9_idempotent (c : Crate) :
    ((visitItemList ⟨UnsafeContext.SafeContext, (checkCrate c).diagnostics,
        (checkCrate c).usedUnsafe⟩ c.items).diagnostics.toFinset =
      (checkCrate c).diagnostics.toFinset)
    ∧ (visitItemList ⟨UnsafeContext.SafeContext, (checkCrate c).diagnostics,
        (checkCrate c).usedUnsafe⟩ c.items).usedUnsafe = (checkCrate c).usedUnsafe := by
  have h0 : (⟨UnsafeContext.SafeContext, (checkCrate c).diagnostics,
      (checkCrate c).usedUnsafe⟩ : St) =
      stApp ⟨UnsafeContext.SafeContext, (checkCrate c).diagnostics,
        (checkCrate c).usedUnsafe⟩ initState :=
    (stApp_initState _ _).symm
  rw [h0, visitItemList_stApp]
  have h1 : visitItemList initState c.items = checkCrate c := rfl
  rw [h1]
  constructor
  · simp [stApp]
  · simp [stApp]

/-- Claim C10: the traversal starts at the crate root in `SafeContext`, so
a guarded operation in a static initializer, outside any function body and
with no marker, produces one missing-context diagnostic. -/
theorem claimC10_root_safe_context (sp : Nat) (m : Mutability) :
    initState.unsafeContext = UnsafeContext.SafeContext
    ∧ (checkCrate ⟨[Item.ItemStatic m (Expr.ExprInlineAsm sp Ty.ty_other)]⟩).diagnostics =
      [⟨sp, 133, "use of inline assembly requires unsafe function or block"⟩] := by
  refine ⟨rfl, ?_⟩
  simp [checkCrate, visitItemList, visitItem, visitExpr, requireUnsafe, initState, spanErr]

end Effect
